import Mathlib

/-!
StaticStateMachine — verification of the FSM core

Shallow embedding of `src/StaticStateMachine.hpp`.

The C++ engine is a CRTP template: the machine object holds a single field
`_currentState` (a pointer to a member step function, here: a selector value
of type `σ`), plus whatever user fields the implementation class declares
(here: a value of type `U`).  States are nested classes whose selectors are
pairwise distinct member-function pointers, modelled by distinct elements of
a type `σ` with decidable equality.  A step function is a member function of
the implementation class: it may read and write the whole machine, so it is
embedded as a function `SSM σ U → SSM σ U`; the binding of selectors to step
functions is a family `stepOf : σ → SSM σ U → SSM σ U`.

The timed specialisation adds one field `_changeTS` of an unsigned integral
`TimeType` of some width `w`; machine integers are embedded as `Nat` reduced
`% 2^w`, and the `TimeStamp()` source is passed explicitly as the `Nat` value
`now` it would return at each call site.
-/

/-- The base `StaticStateMachine<States>` object: the `_currentState`
selector (`cur`) together with the user fields of the implementation
class (`user`). -/
structure SSM (σ : Type) (U : Type) where
  cur : σ
  user : U
deriving DecidableEq

/-- `state()`: returns the raw current selector (`return _currentState;`). -/
def SSM.state {σ U : Type} (m : SSM σ U) : σ :=
  m.cur

/-- `isState<S>()`: `return _currentState == S::state();` — compares the
current selector with `S`'s selector. -/
def SSM.isState {σ U : Type} [DecidableEq σ] (s : σ) (m : SSM σ U) : Bool :=
  decide (m.cur = s)

/-- `changeState<S>()`: `_currentState = S::state();` — assigns the current
selector, touching nothing else. -/
def SSM.changeState {σ U : Type} (s : σ) (m : SSM σ U) : SSM σ U :=
  { m with cur := s }

/-- `update()`: `(t.*t._currentState)();` — reads the current selector once
and invokes the step function bound to it on the whole machine. -/
def SSM.update {σ U : Type} (stepOf : σ → SSM σ U → SSM σ U) (m : SSM σ U) :
    SSM σ U :=
  stepOf m.cur m

/-- The timed specialisation
`StaticStateMachine<States, TimedAttr<TimeType, TimeStamp>>`: the inherited
base subobject plus the `_changeTS` field (a `w`-bit unsigned timestamp,
kept reduced `% 2^w`). -/
structure TimedSSM (σ : Type) (U : Type) where
  base : SSM σ U
  changeTS : Nat
deriving DecidableEq

/-- `w`-bit unsigned subtraction `a - b` as C++ computes it on a `TimeType`
of width `w`: the result is the unique representative of `a - b` modulo
`2^w` in `[0, 2^w)`. -/
def usub (w a b : Nat) : Nat :=
  (a % 2 ^ w + (2 ^ w - b % 2 ^ w)) % 2 ^ w

/-- `stateElapsed()`: `return TimeStamp() - _changeTS;` with `TimeStamp()`
returning `now`, computed in `w`-bit unsigned arithmetic. -/
def TimedSSM.stateElapsed {σ U : Type} (w now : Nat) (m : TimedSSM σ U) :
    Nat :=
  usub w now m.changeTS

/-- The timed `changeState<S>()`: `_changeTS = TimeStamp();` followed by the
base selector assignment `StaticStateMachine<States>::changeState<S>()`,
with `TimeStamp()` returning `now`. -/
def TimedSSM.changeState {σ U : Type} (w : Nat) (s : σ) (now : Nat)
    (m : TimedSSM σ U) : TimedSSM σ U :=
  { m with changeTS := now % 2 ^ w, base := SSM.changeState s m.base }

/-- The inherited `isState<S>()` on a timed machine reads the base
subobject's selector. -/
def TimedSSM.isState {σ U : Type} [DecidableEq σ] (s : σ)
    (m : TimedSSM σ U) : Bool :=
  SSM.isState s m.base

/-- The inherited `update()` on a timed machine: dispatches on the base
subobject's `_currentState`; the invoked member function sees the whole
derived object. -/
def TimedSSM.update {σ U : Type}
    (stepOf : σ → TimedSSM σ U → TimedSSM σ U) (m : TimedSSM σ U) :
    TimedSSM σ U :=
  stepOf m.base.cur m

/-- Calling the non-virtual base `StaticStateMachine<States>::changeState<S>()`
on a timed machine instance (e.g. through a base-class reference): it assigns
the base subobject's `_currentState` and cannot see `_changeTS`. -/
def TimedSSM.baseChangeState {σ U : Type} (s : σ) (m : TimedSSM σ U) :
    TimedSSM σ U :=
  { m with base := SSM.changeState s m.base }

/-!
Instrumented dispatch

`update()` contains exactly one call through the member pointer.  To state
"exactly one step function executes per tick" as a theorem rather than read
it off the source text, step functions are instrumented: each one appends an
event recording its own execution to a log carried in the user data, around
an otherwise arbitrary raw behaviour.  The raw behaviour sees the selector
and the remaining user fields, exactly what a C++ member function sees.
-/

/-- Observable execution events of a machine run: `run s` records that the
ordinary step function bound to selector `s` executed; `enter e` records
that the one-shot entry body of entry selector `e` executed. -/
inductive FsmEv (σ : Type) where
  | run (s : σ)
  | enter (e : σ)
deriving DecidableEq

/-- User data of an instrumented machine: the implementation's own fields
`V` together with the event log. -/
abbrev LoggedU (σ V : Type) := V × List (FsmEv σ)

/-- The step function bound to selector `s`, instrumented: it performs an
arbitrary raw behaviour `f` (reading and writing the selector and the user
fields, as any member function may) and records one `run s` event. -/
def liftStep {σ V : Type} (s : σ) (f : SSM σ V → SSM σ V) :
    SSM σ (LoggedU σ V) → SSM σ (LoggedU σ V) :=
  fun m =>
    let m' := f ⟨m.cur, m.user.1⟩
    ⟨m'.cur, (m'.user, m.user.2 ++ [FsmEv.run s])⟩

/-- A whole machine whose every declared state `s` runs the raw behaviour
`raw s`, instrumented. -/
def loggedStepOf {σ V : Type} (raw : σ → SSM σ V → SSM σ V) :
    σ → SSM σ (LoggedU σ V) → SSM σ (LoggedU σ V) :=
  fun s => liftStep s (raw s)

/-!
Entry states

`DECLARE_STATE_ENTRY_MEMBER(to, name)` synthesizes the step function

    void update_to_name() { changeState<to>(); enter_to_name(); }

i.e. an unconditional transition to the target followed by the user-supplied
one-shot body.
-/

/-- The synthesized step function of an entry state targeting `t` with entry
body `enter`: transition first, then the body. -/
def entryUpdater {σ U : Type} (t : σ) (enter : SSM σ U → SSM σ U) :
    SSM σ U → SSM σ U :=
  fun m => enter (SSM.changeState t m)

/-- The one-shot entry body of entry selector `e`, instrumented: it performs
an arbitrary raw behaviour `body` and records one `enter e` event. -/
def liftEnter {σ V : Type} (e : σ) (body : SSM σ V → SSM σ V) :
    SSM σ (LoggedU σ V) → SSM σ (LoggedU σ V) :=
  fun m =>
    let m' := body ⟨m.cur, m.user.1⟩
    ⟨m'.cur, (m'.user, m.user.2 ++ [FsmEv.enter e])⟩

/-- A machine with one entry state: selector `e` is bound to the synthesized
entry updater targeting `t` with instrumented body `body`; every other
selector `s` is bound to its ordinary instrumented step `raw s`. -/
def entryStepOf {σ V : Type} [DecidableEq σ] (e t : σ)
    (body : SSM σ V → SSM σ V) (raw : σ → SSM σ V → SSM σ V) :
    σ → SSM σ (LoggedU σ V) → SSM σ (LoggedU σ V) :=
  fun s => if s = e then entryUpdater t (liftEnter e body) else liftStep s (raw s)

/-!
The uninitialized machine and run-time totality

The C++ object is constructed with `_currentState` never assigned; the one
conceivable run-time failure is `update()` calling through the indeterminate
member pointer.  `RawTimed` models the timed machine as constructed, with an
`Option` selector (`none` = never assigned), and `runOp` models one API call,
returning `Except`: only `update()` on a never-assigned selector errors.
-/

/-- A timed machine object as constructed: `_currentState` possibly never
assigned (`none`), `_changeTS` with an arbitrary initial value. -/
structure RawTimed (σ : Type) (U : Type) where
  cur : Option σ
  changeTS : Nat
  user : U
deriving DecidableEq

/-- One API call on the machine. -/
inductive MOp (σ : Type) where
  | changeSt (s : σ)
  | isSt (s : σ)
  | readSt
  | elapsed
  | upd
deriving DecidableEq

/-- Execute one API call on a machine as constructed.  `changeSt` is the
timed `changeState<S>()` (stamps `now % 2^w`, assigns the selector);
`isSt`, `readSt` and `elapsed` are the pure reads `isState<S>()`, `state()`
and `stateElapsed()`; `upd` is `update()`, which calls through the member
pointer and therefore has no defined behaviour when the selector was never
assigned — the one error path of the model. -/
def runOp {σ U : Type} (w now : Nat)
    (stepOf : σ → TimedSSM σ U → TimedSSM σ U) (m : RawTimed σ U) :
    MOp σ → Except Unit (RawTimed σ U)
  | .changeSt s => .ok ⟨some s, now % 2 ^ w, m.user⟩
  | .isSt _ => .ok m
  | .readSt => .ok m
  | .elapsed => .ok m
  | .upd =>
    match m.cur with
    | none => .error ()
    | some s =>
      let m' := stepOf s ⟨⟨s, m.user⟩, m.changeTS⟩
      .ok ⟨some m'.base.cur, m'.changeTS, m'.base.user⟩

/-- Execute a sequence of API calls, stopping at the first error. -/
def runOps {σ U : Type} (w now : Nat)
    (stepOf : σ → TimedSSM σ U → TimedSSM σ U) (m : RawTimed σ U) :
    List (MOp σ) → Except Unit (RawTimed σ U)
  | [] => .ok m
  | op :: rest =>
    match runOp w now stepOf m op with
    | .error e => .error e
    | .ok m' => runOps w now stepOf m' rest

/-- The host discipline: every `update()` call is preceded by some
`changeState` call (argument: whether an initial state is already set). -/
def safeOps {σ : Type} : Bool → List (MOp σ) → Bool
  | _, [] => true
  | _, .changeSt _ :: rest => safeOps true rest
  | b, .upd :: rest => b && safeOps b rest
  | b, .isSt _ :: rest => safeOps b rest
  | b, .readSt :: rest => safeOps b rest
  | b, .elapsed :: rest => safeOps b rest

/-!
Helper lemmas
-/

/-- `w`-bit unsigned subtraction recovers a duration `d < 2^w` across at
most one wraparound: `((t + d) mod 2^w) - t = d`. -/
theorem usub_add_mod (w t d : Nat) (ht : t < 2 ^ w) (hd : d < 2 ^ w) :
    usub w ((t + d) % 2 ^ w) t = d := by
  have hN : 0 < 2 ^ w := Nat.two_pow_pos w
  unfold usub
  rw [Nat.mod_mod_of_dvd _ dvd_rfl, Nat.mod_eq_of_lt ht]
  rcases Nat.lt_or_ge (t + d) (2 ^ w) with h | h
  · rw [Nat.mod_eq_of_lt h]
    have he : t + d + (2 ^ w - t) = d + 2 ^ w := by omega
    rw [he, Nat.add_mod_right, Nat.mod_eq_of_lt hd]
  · have hlt : t + d - 2 ^ w < 2 ^ w := by omega
    rw [Nat.mod_eq_sub_mod h, Nat.mod_eq_of_lt hlt]
    have he : t + d - 2 ^ w + (2 ^ w - t) = d := by omega
    rw [he, Nat.mod_eq_of_lt hd]

/-- Immediately after a timed `changeState`, with the time source unchanged,
`stateElapsed` is `0`. -/
theorem stateElapsed_changeState_self {σ U : Type} (w : Nat) (s : σ)
    (now : Nat) (m : TimedSSM σ U) :
    TimedSSM.stateElapsed w now (TimedSSM.changeState w s now m) = 0 := by
  have hN : 0 < 2 ^ w := Nat.two_pow_pos w
  have hlt : now % 2 ^ w < 2 ^ w := Nat.mod_lt _ hN
  unfold TimedSSM.stateElapsed TimedSSM.changeState usub
  simp only
  rw [Nat.mod_mod_of_dvd _ dvd_rfl]
  have he : now % 2 ^ w + (2 ^ w - now % 2 ^ w) = 2 ^ w := by omega
  rw [he, Nat.mod_self]

/-!
Claim theorems
-/

/-- C1: immediately after `changeState<S>()`, `isState<S>()` returns `true`,
and `isState<T>()` returns `false` for every other declared state `T ≠ S`
(distinct declared states have distinct selectors). -/
theorem C1_changeState_isState {σ U : Type} [DecidableEq σ] (s t : σ)
    (m : SSM σ U) (hne : t ≠ s) :
    SSM.isState s (SSM.changeState s m) = true ∧
    SSM.isState t (SSM.changeState s m) = false := by
  refine ⟨by simp [SSM.isState, SSM.changeState], ?_⟩
  simp [SSM.isState, SSM.changeState, Ne.symm hne]

/-- Witness for C1 on a concrete two-state machine. -/
theorem C1_witness :
    SSM.isState true (SSM.changeState true (SSM.mk false () : SSM Bool Unit)) = true ∧
    SSM.isState false (SSM.changeState true (SSM.mk false () : SSM Bool Unit)) = false :=
  C1_changeState_isState true false (SSM.mk false ()) (by decide)

/-- C2: one `update()` call executes exactly the step function bound to the
current selector, exactly once and no other: whatever the (instrumented)
step functions do, the event log grows by exactly the one event
`run m.cur`, and the machine's selector and user fields afterwards are
those produced by that one bound step function. -/
theorem C2_update_runs_bound_step_once {σ V : Type}
    (raw : σ → SSM σ V → SSM σ V) (m : SSM σ (LoggedU σ V)) :
    (SSM.update (loggedStepOf raw) m).user.2
      = m.user.2 ++ [FsmEv.run m.cur] ∧
    (SSM.update (loggedStepOf raw) m).cur
      = (raw m.cur ⟨m.cur, m.user.1⟩).cur ∧
    (SSM.update (loggedStepOf raw) m).user.1
      = (raw m.cur ⟨m.cur, m.user.1⟩).user :=
  ⟨rfl, rfl, rfl⟩

/-- C3: the timed `changeState<S>()` stores the current time in
`_changeTS` and assigns the selector, so that with the time source
unchanged `stateElapsed()` returns `0`, and after `d < 2^w` further time
units with no transition it returns `d`. -/
theorem C3_timed_changeState_elapsed {σ U : Type} (w : Nat) (s : σ)
    (now d : Nat) (m : TimedSSM σ U) (hnow : now < 2 ^ w)
    (hd : d < 2 ^ w) :
    TimedSSM.stateElapsed w now (TimedSSM.changeState w s now m) = 0 ∧
    (TimedSSM.changeState w s now m).base.cur = s ∧
    TimedSSM.stateElapsed w ((now + d) % 2 ^ w)
      (TimedSSM.changeState w s now m) = d := by
  refine ⟨stateElapsed_changeState_self w s now m, rfl, ?_⟩
  have hts : (TimedSSM.changeState w s now m).changeTS = now := by
    simp [TimedSSM.changeState, Nat.mod_eq_of_lt hnow]
  unfold TimedSSM.stateElapsed
  rw [hts]
  exact usub_add_mod w now d hnow hd

/-- Witness for C3 on a concrete timed machine with 4-bit time. -/
theorem C3_witness :
    TimedSSM.stateElapsed 4 10
      (TimedSSM.changeState 4 true 10 (TimedSSM.mk (SSM.mk false ()) 3)) = 0 ∧
    (TimedSSM.changeState 4 true 10
      (TimedSSM.mk (SSM.mk false ()) 3 : TimedSSM Bool Unit)).base.cur = true ∧
    TimedSSM.stateElapsed 4 ((10 + 13) % 2 ^ 4)
      (TimedSSM.changeState 4 true 10 (TimedSSM.mk (SSM.mk false ()) 3)) = 13 :=
  C3_timed_changeState_elapsed 4 true 10 13 (TimedSSM.mk (SSM.mk false ()) 3)
    (by decide) (by decide)

/-- C5: `stateElapsed()` is correct across one wraparound of the `w`-bit
time integer: if the transition stamped `t` and the time source now reads
`(t + d) mod 2^w` with `d < 2^w`, then `stateElapsed()` returns `d`. -/
theorem C5_stateElapsed_wraparound {σ U : Type} (w t d : Nat)
    (m : TimedSSM σ U) (hts : m.changeTS = t) (ht : t < 2 ^ w)
    (hd : d < 2 ^ w) :
    TimedSSM.stateElapsed w ((t + d) % 2 ^ w) m = d := by
  unfold TimedSSM.stateElapsed
  rw [hts]
  exact usub_add_mod w t d ht hd

/-- Witness for C5: 3-bit time, transition at 6, 5 units later the clock
has wrapped to 3; elapsed is still 5. -/
theorem C5_witness :
    TimedSSM.stateElapsed 3 ((6 + 5) % 2 ^ 3)
      (TimedSSM.mk (SSM.mk true ()) 6 : TimedSSM Bool Unit) = 5 :=
  C5_stateElapsed_wraparound 3 6 5 (TimedSSM.mk (SSM.mk true ()) 6) rfl
    (by decide) (by decide)

/-- C4: starting at entry selector `e` targeting `t`, one `update()` first
transitions to `t` (so an `isState` check after the transition within the
tick already observes `t`; on a timed machine the transition refreshes the
timestamp) and then runs the entry body exactly once; a second `update()`
runs `t`'s ordinary step function and not the entry body again. -/
theorem C4_entry_state_two_ticks {σ V : Type} [DecidableEq σ]
    (e t : σ) (body : SSM σ V → SSM σ V) (raw : σ → SSM σ V → SSM σ V)
    (v : V) (w now : Nat) (tm : TimedSSM σ V)
    (hne : e ≠ t) (hb : (body (SSM.mk t v)).cur = t) :
    SSM.isState t (SSM.changeState t
      (SSM.mk e (v, ([] : List (FsmEv σ))))) = true ∧
    (SSM.update (entryStepOf e t body raw) (SSM.mk e (v, []))).cur = t ∧
    (SSM.update (entryStepOf e t body raw) (SSM.mk e (v, []))).user.2
      = [FsmEv.enter e] ∧
    (SSM.update (entryStepOf e t body raw) (SSM.mk e (v, []))).user.1
      = (body (SSM.mk t v)).user ∧
    (SSM.update (entryStepOf e t body raw)
      (SSM.update (entryStepOf e t body raw) (SSM.mk e (v, [])))).user.2
      = [FsmEv.enter e, FsmEv.run t] ∧
    TimedSSM.stateElapsed w now (TimedSSM.changeState w t now tm) = 0 := by
  have h1 : SSM.update (entryStepOf e t body raw) (SSM.mk e (v, []))
      = SSM.mk (body (SSM.mk t v)).cur
          ((body (SSM.mk t v)).user, [FsmEv.enter e]) := by
    simp [SSM.update, entryStepOf, entryUpdater, liftEnter, SSM.changeState]
  refine ⟨by simp [SSM.isState, SSM.changeState], ?_, ?_, ?_, ?_,
    stateElapsed_changeState_self w t now tm⟩
  · rw [h1]; exact hb
  · rw [h1]
  · rw [h1]
  · rw [h1]
    simp [SSM.update, entryStepOf, liftStep, hb, hne.symm]

/-- Witness for C4 on a concrete machine: entry selector `false`,
target `true`, identity body, 5-bit time. -/
theorem C4_witness :
    SSM.isState true (SSM.changeState true
      (SSM.mk false ((), ([] : List (FsmEv Bool))))) = true ∧
    (SSM.update (entryStepOf false true (fun (mm : SSM Bool Unit) => mm)
      (fun _ mm => mm)) (SSM.mk false ((), []))).cur = true ∧
    (SSM.update (entryStepOf false true (fun (mm : SSM Bool Unit) => mm)
      (fun _ mm => mm)) (SSM.mk false ((), []))).user.2
      = [FsmEv.enter false] ∧
    (SSM.update (entryStepOf false true (fun (mm : SSM Bool Unit) => mm)
      (fun _ mm => mm)) (SSM.mk false ((), []))).user.1 = () ∧
    (SSM.update (entryStepOf false true (fun (mm : SSM Bool Unit) => mm)
      (fun _ mm => mm))
      (SSM.update (entryStepOf false true (fun (mm : SSM Bool Unit) => mm)
        (fun _ mm => mm)) (SSM.mk false ((), [])))).user.2
      = [FsmEv.enter false, FsmEv.run true] ∧
    TimedSSM.stateElapsed 5 9
      (TimedSSM.changeState 5 true 9 (TimedSSM.mk (SSM.mk true ()) 2)) = 0 :=
  C4_entry_state_two_ticks false true (fun mm => mm) (fun _ mm => mm) () 5 9
    (TimedSSM.mk (SSM.mk true ()) 2) (by decide) rfl

/-- C6: when the step function of the current state calls `changeState<S>`
and then continues with further work (`after`), one `update()` runs only
the old state's step function — which runs to completion, its continuation
included — while the new selector takes effect for dispatch only at the
next `update()`, which then runs the new state's step function. -/
theorem C6_changeState_effect_next_tick {σ V : Type}
    (raw : σ → SSM σ V → SSM σ V) (t : σ) (after : SSM σ V → SSM σ V)
    (m : SSM σ (LoggedU σ V))
    (hstep : raw m.cur = fun mm => after (SSM.changeState t mm))
    (hafter : (after (SSM.changeState t (SSM.mk m.cur m.user.1))).cur = t) :
    (SSM.update (loggedStepOf raw) m).user.2
      = m.user.2 ++ [FsmEv.run m.cur] ∧
    (SSM.update (loggedStepOf raw) m).user.1
      = (after (SSM.changeState t (SSM.mk m.cur m.user.1))).user ∧
    (SSM.update (loggedStepOf raw) m).cur = t ∧
    (SSM.update (loggedStepOf raw) (SSM.update (loggedStepOf raw) m)).user.2
      = (SSM.update (loggedStepOf raw) m).user.2 ++ [FsmEv.run t] := by
  have h1 : SSM.update (loggedStepOf raw) m
      = SSM.mk (after (SSM.changeState t (SSM.mk m.cur m.user.1))).cur
          ((after (SSM.changeState t (SSM.mk m.cur m.user.1))).user,
           m.user.2 ++ [FsmEv.run m.cur]) := by
    simp [SSM.update, loggedStepOf, liftStep, hstep]
  refine ⟨by rw [h1], by rw [h1], by rw [h1]; exact hafter, ?_⟩
  rw [h1]
  simp [SSM.update, loggedStepOf, liftStep, hafter]

/-- Witness for C6: in state `false`, the step function transitions to
`true` and runs on; the first tick logs only the old state's execution,
the second tick runs the new state's step function. -/
theorem C6_witness :
    (SSM.update (loggedStepOf (fun (_ : Bool) (mm : SSM Bool Unit) =>
        SSM.changeState true mm)) (SSM.mk false ((), []))).user.2
      = ([] : List (FsmEv Bool)) ++ [FsmEv.run false] ∧
    (SSM.update (loggedStepOf (fun (_ : Bool) (mm : SSM Bool Unit) =>
        SSM.changeState true mm)) (SSM.mk false ((), []))).user.1 = () ∧
    (SSM.update (loggedStepOf (fun (_ : Bool) (mm : SSM Bool Unit) =>
        SSM.changeState true mm)) (SSM.mk false ((), []))).cur = true ∧
    (SSM.update (loggedStepOf (fun (_ : Bool) (mm : SSM Bool Unit) =>
        SSM.changeState true mm))
      (SSM.update (loggedStepOf (fun (_ : Bool) (mm : SSM Bool Unit) =>
        SSM.changeState true mm)) (SSM.mk false ((), [])))).user.2
      = (SSM.update (loggedStepOf (fun (_ : Bool) (mm : SSM Bool Unit) =>
          SSM.changeState true mm)) (SSM.mk false ((), []))).user.2
        ++ [FsmEv.run true] :=
  C6_changeState_effect_next_tick
    (fun _ mm => SSM.changeState true mm) true (fun mm => mm)
    (SSM.mk false ((), [])) rfl rfl

/-- C7: repeated `changeState` calls within one tick: the last call
determines the selector (repeating the same target is idempotent), the
timed timestamp is reset by every call with no accumulation, and it is
reset even when the target equals the current state (`tm'` is a machine
already in state `s`). -/
theorem C7_changeState_last_wins {σ U : Type} (s s1 s2 : σ) (m : SSM σ U)
    (w n n1 n2 : Nat) (tm tm' : TimedSSM σ U) (hcur : tm'.base.cur = s) :
    SSM.changeState s (SSM.changeState s m) = SSM.changeState s m ∧
    SSM.changeState s2 (SSM.changeState s1 m) = SSM.changeState s2 m ∧
    TimedSSM.changeState w s n2 (TimedSSM.changeState w s n1 tm)
      = TimedSSM.changeState w s n2 tm ∧
    TimedSSM.stateElapsed w n (TimedSSM.changeState w s n tm) = 0 ∧
    TimedSSM.stateElapsed w n (TimedSSM.changeState w s n tm') = 0 :=
  ⟨rfl, rfl, rfl, stateElapsed_changeState_self w s n tm,
    stateElapsed_changeState_self w s n tm'⟩

/-- Witness for C7; `tm'` is already in the target state `true`. -/
theorem C7_witness :
    SSM.changeState true (SSM.changeState true (SSM.mk false ()))
      = SSM.changeState true (SSM.mk false ()) ∧
    SSM.changeState true (SSM.changeState false (SSM.mk false ()))
      = SSM.changeState true (SSM.mk false ()) ∧
    TimedSSM.changeState 4 true 7
        (TimedSSM.changeState 4 true 6 (TimedSSM.mk (SSM.mk false ()) 1))
      = TimedSSM.changeState 4 true 7 (TimedSSM.mk (SSM.mk false ()) 1) ∧
    TimedSSM.stateElapsed 4 5
      (TimedSSM.changeState 4 true 5 (TimedSSM.mk (SSM.mk false ()) 1)) = 0 ∧
    TimedSSM.stateElapsed 4 5
      (TimedSSM.changeState 4 true 5 (TimedSSM.mk (SSM.mk true ()) 2)) = 0 :=
  C7_changeState_last_wins true false true (SSM.mk false ()) 4 5 6 7
    (TimedSSM.mk (SSM.mk false ()) 1) (TimedSSM.mk (SSM.mk true ()) 2) rfl

/-- C9: `changeState<S>()` modifies only the selector (timed variant: also
the timestamp, set to the captured time) and leaves all user fields
unchanged; `isState<S>()` is a pure read depending only on the current
selector. -/
theorem C9_changeState_frame {σ U : Type} [DecidableEq σ] (s s' q : σ)
    (m : SSM σ U) (w now : Nat) (tm : TimedSSM σ U) (m1 m2 : SSM σ U)
    (hcur : m1.cur = m2.cur) :
    (SSM.changeState s m).user = m.user ∧
    (SSM.changeState s m).cur = s ∧
    (TimedSSM.changeState w s' now tm).base.user = tm.base.user ∧
    (TimedSSM.changeState w s' now tm).base.cur = s' ∧
    (TimedSSM.changeState w s' now tm).changeTS = now % 2 ^ w ∧
    SSM.isState q m1 = SSM.isState q m2 := by
  refine ⟨rfl, rfl, rfl, rfl, rfl, ?_⟩
  simp [SSM.isState, hcur]

/-- Witness for C9; `m1` and `m2` share the selector but differ in user
fields, so `isState` reads only the selector. -/
theorem C9_witness :
    (SSM.changeState true (SSM.mk false (3 : Nat))).user = (3 : Nat) ∧
    (SSM.changeState true (SSM.mk false (3 : Nat))).cur = true ∧
    (TimedSSM.changeState 4 false 9
      (TimedSSM.mk (SSM.mk true (3 : Nat)) 2)).base.user = (3 : Nat) ∧
    (TimedSSM.changeState 4 false 9
      (TimedSSM.mk (SSM.mk true (3 : Nat)) 2)).base.cur = false ∧
    (TimedSSM.changeState 4 false 9
      (TimedSSM.mk (SSM.mk true (3 : Nat)) 2)).changeTS = 9 % 2 ^ 4 ∧
    SSM.isState true (SSM.mk true (5 : Nat))
      = SSM.isState true (SSM.mk true (8 : Nat)) :=
  C9_changeState_frame true false true (SSM.mk false (3 : Nat)) 4 9
    (TimedSSM.mk (SSM.mk true (3 : Nat)) 2) (SSM.mk true (5 : Nat))
    (SSM.mk true (8 : Nat)) rfl

/-- C10: the timed `changeState` shadows (does not virtually override) the
base one: the base-class `changeState<S>()` invoked on a timed machine
assigns the selector but leaves `_changeTS` unchanged, so `stateElapsed()`
is not reset by that call. -/
theorem C10_base_changeState_keeps_timestamp {σ U : Type} (s : σ)
    (w now : Nat) (m : TimedSSM σ U) :
    (TimedSSM.baseChangeState s m).changeTS = m.changeTS ∧
    (TimedSSM.baseChangeState s m).base.cur = s ∧
    TimedSSM.stateElapsed w now (TimedSSM.baseChangeState s m)
      = TimedSSM.stateElapsed w now m :=
  ⟨rfl, rfl, rfl⟩

/-- Whether a run of API calls completed without hitting the error path. -/
def runOk {σ U : Type} : Except Unit (RawTimed σ U) → Bool
  | .ok _ => true
  | .error _ => false

/-- C8: every operation — `changeState`, `isState`, `state`, `update` and
(timed) `stateElapsed` — is total at run time: any sequence of API calls in
which every `update()` is preceded by some `changeState` call (the host
sets an initial state first) runs without reaching an error. -/
theorem C8_ops_total {σ U : Type} (w now : Nat)
    (stepOf : σ → TimedSSM σ U → TimedSSM σ U) (ops : List (MOp σ))
    (m : RawTimed σ U) (h : safeOps m.cur.isSome ops = true) :
    runOk (runOps w now stepOf m ops) = true := by
  induction ops generalizing m with
  | nil => rfl
  | cons op rest ih =>
    cases op with
    | changeSt s =>
      have h' : safeOps (σ := σ) true rest = true := by
        simpa [safeOps] using h
      have hrec := ih (RawTimed.mk (some s) (now % 2 ^ w) m.user)
        (by simpa using h')
      simpa [runOps, runOp] using hrec
    | isSt s =>
      have h' : safeOps m.cur.isSome rest = true := by
        simpa [safeOps] using h
      simpa [runOps, runOp] using ih m h'
    | readSt =>
      have h' : safeOps m.cur.isSome rest = true := by
        simpa [safeOps] using h
      simpa [runOps, runOp] using ih m h'
    | elapsed =>
      have h' : safeOps m.cur.isSome rest = true := by
        simpa [safeOps] using h
      simpa [runOps, runOp] using ih m h'
    | upd =>
      have h' : (m.cur.isSome && safeOps m.cur.isSome rest) = true := by
        simpa [safeOps] using h
      have h2 : m.cur.isSome = true ∧ safeOps m.cur.isSome rest = true := by
        simpa using h'
      obtain ⟨hsome, hrest⟩ := h2
      obtain ⟨sc, hsc⟩ := Option.isSome_iff_exists.mp hsome
      rw [hsc] at hrest
      have hrec := ih (RawTimed.mk
        (some (stepOf sc (TimedSSM.mk (SSM.mk sc m.user) m.changeTS)).base.cur)
        (stepOf sc (TimedSSM.mk (SSM.mk sc m.user) m.changeTS)).changeTS
        (stepOf sc (TimedSSM.mk (SSM.mk sc m.user) m.changeTS)).base.user)
        (by simpa using hrest)
      simpa [runOps, runOp, hsc] using hrec

/-- Witness for C8: a concrete call sequence on a never-initialized
machine that sets an initial state, performs all the pure reads and two
`update()` calls, and completes without error. -/
theorem C8_witness :
    runOk (runOps 4 7 (fun _ tm => tm)
      (RawTimed.mk (none : Option Bool) 0 ())
      [MOp.changeSt true, MOp.isSt false, MOp.readSt, MOp.elapsed,
       MOp.upd, MOp.upd]) = true :=
  C8_ops_total 4 7 (fun _ tm => tm) _ (RawTimed.mk (none : Option Bool) 0 ())
    (by decide)
